import Mathlib

/-!
Verification of the geo-weather ETL repository (load_locations.py,
fetch_weather.py, Mini_Project/app.py) against its natural-language
specification.

Shallow embedding conventions:
* A MongoDB collection is a list of documents in insertion order; the
  collection is append-only, so reads are pure functions of that list.
* Timestamps (datetime.utcnow()) are modelled as integers; only their
  total order matters to the code under verification.
* Numeric payload and coordinate values are modelled as integers: the
  source never computes with them, it only parses, stores and moves them.
* Mongo `$sort` is modelled as a stable sort (documents with equal keys
  keep insertion order); `$group` with `$first` keeps, per key, the first
  document of the sorted stream.
* Python dictionaries are association lists with unique keys in insertion
  order; `d[k] = v` updates the first binding in place or appends a new
  binding at the end, matching dict insertion-order semantics.
* An uncaught Python exception is `none` in an `Option` result.
-/

/-- A stored weather report as read back by `app.py`: the fields the two
aggregation queries actually touch (`city_name_clean`, `fetch_timestamp`,
and the temperature extracted from `main.temp`). -/
structure WeatherDoc where
  city_name_clean : String
  fetch_timestamp : Int
  temp : Int
deriving DecidableEq, Repr

/-- Stable insertion (descending by `fetch_timestamp`) used to model the
`{"$sort": {"fetch_timestamp": -1}}` stage: an element is placed before
the first element whose timestamp is less than or equal to its own, so
documents with equal timestamps keep their insertion order. -/
def insertDescByTs (x : WeatherDoc) : List WeatherDoc → List WeatherDoc
  | [] => [x]
  | y :: ys =>
    if y.fetch_timestamp ≤ x.fetch_timestamp then x :: y :: ys
    else y :: insertDescByTs x ys

/-- Stable descending sort by `fetch_timestamp` (model of the `$sort` stage). -/
def sortDescByTs : List WeatherDoc → List WeatherDoc
  | [] => []
  | x :: xs => insertDescByTs x (sortDescByTs xs)

/-- Stable insertion (ascending by `fetch_timestamp`), used to model
`.sort("fetch_timestamp", 1)` on a Mongo cursor. -/
def insertAscByTs (x : WeatherDoc) : List WeatherDoc → List WeatherDoc
  | [] => [x]
  | y :: ys =>
    if x.fetch_timestamp ≤ y.fetch_timestamp then x :: y :: ys
    else y :: insertAscByTs x ys

/-- Stable ascending sort by `fetch_timestamp`. -/
def sortAscByTs : List WeatherDoc → List WeatherDoc
  | [] => []
  | x :: xs => insertAscByTs x (sortAscByTs xs)

/-- Model of the `{"$group": {"_id": "$city_name_clean",
"latest_report": {"$first": "$$ROOT"}}}` stage: one output entry per
distinct city, holding the first document of the (already sorted) stream
for that city.  `seen` accumulates the group keys already emitted. -/
def groupFirstByCity (seen : List String) : List WeatherDoc → List (String × WeatherDoc)
  | [] => []
  | d :: ds =>
    if d.city_name_clean ∈ seen then groupFirstByCity seen ds
    else (d.city_name_clean, d) :: groupFirstByCity (d.city_name_clean :: seen) ds

/-- `get_latest_weather_from_mongo` (app.py): runs the aggregation
pipeline `$sort (fetch_timestamp desc)` then `$group` by
`city_name_clean` taking `$first`.  Returns the per-city latest entries
paired with the collection state after the call; `aggregate` issues no
writes, so the collection is returned unchanged. -/
def get_latest_weather_from_mongo (log : List WeatherDoc) :
    List (String × WeatherDoc) × List WeatherDoc :=
  (groupFirstByCity [] (sortDescByTs log), log)

/-- `get_city_history_from_mongo` (app.py): `find({"city_name_clean":
selected_city}).sort("fetch_timestamp", 1)`, then projection of each
document to the `(timestamp, temperature)` pair placed in the dataframe.
`find` issues no writes, so the collection is returned unchanged. -/
def get_city_history_from_mongo (log : List WeatherDoc) (selected_city : String) :
    List (Int × Int) × List WeatherDoc :=
  ((sortAscByTs (log.filter (fun e => e.city_name_clean == selected_city))).map
      (fun doc => (doc.fetch_timestamp, doc.temp)),
   log)

/-! ## fetch_weather.py: JSON documents, transform and load -/

/-- A JSON value as produced by `response.json()` and stored in MongoDB.
Numbers are modelled as integers (the pipeline only moves them around). -/
inductive JVal where
  | null
  | bool (b : Bool)
  | num (n : Int)
  | str (s : String)
  | arr (elems : List JVal)
  | obj (fields : List (String × JVal))

/-- A Python dict / MongoDB document: bindings in insertion order. -/
abbrev JDoc := List (String × JVal)

/-- `d[k]` lookup on a dict: first binding wins. -/
def getField : JDoc → String → Option JVal
  | [], _ => none
  | (k, v) :: rest, key => if k = key then some v else getField rest key

/-- `d[k] = v` on a dict: update the first binding for `k` in place, or
append a new binding at the end (Python dict insertion-order semantics). -/
def setField : JDoc → String → JVal → JDoc
  | [], key, v => [(key, v)]
  | (k, w) :: rest, key, v =>
    if k = key then (k, v) :: rest else (k, w) :: setField rest key v

/-- Steps (1) and (2) of the Transform half of
`transform_and_load_to_mongo` (fetch_weather.py): the payload after
`data["fetch_timestamp"] = utcnow-reading` and
`data["city_name_clean"] = city_name`. -/
def taggedDoc (data : JDoc) (city_name : String) (now : Int) : JDoc :=
  setField (setField data "fetch_timestamp" (JVal.num now))
    "city_name_clean" (JVal.str city_name)

/-- The Transform half of `transform_and_load_to_mongo` (fetch_weather.py):
sets `fetch_timestamp` to the clock reading taken inside the call, sets
`city_name_clean` to the caller's city name (`taggedDoc`), and, when the
payload has a `coord` key, adds a GeoJSON point whose coordinates are
`[coord.lon, coord.lat]`.  The subscripting `data["coord"]["lon"]` /
`["lat"]` raises (KeyError / TypeError) when `coord` is not an object or
lacks either key; that exception is not caught (the try block only wraps
the Mongo insert), hence the `Option` result. -/
def transformPayload (data : JDoc) (city_name : String) (now : Int) : Option JDoc :=
  match getField (taggedDoc data city_name now) "coord" with
  | none => some (taggedDoc data city_name now)
  | some (JVal.obj c) =>
    match getField c "lon", getField c "lat" with
    | some lonv, some latv =>
      some (setField (taggedDoc data city_name now) "geojson_location"
        (JVal.obj [("type", JVal.str "Point"),
                   ("coordinates", JVal.arr [lonv, latv])]))
    | _, _ => none
  | some _ => none

/-- `transform_and_load_to_mongo` (fetch_weather.py).  `data = none`
models a `None` argument (returns `False` before any write).  `mongoOk`
models availability of the Mongo connection: when false, `insert_one`
raises, the except branch returns `False`, and nothing is appended.  The
outer `Option` is an uncaught exception escaping the transform half.
Result: `(return value, collection after the call)`. -/
def transform_and_load_to_mongo (data : Option JDoc) (city_name : String) (now : Int)
    (mongoOk : Bool) (store : List JDoc) : Option (Bool × List JDoc) :=
  match data with
  | none => some (false, store)
  | some d =>
    match transformPayload d city_name now with
    | none => none
    | some doc =>
      if mongoOk then some (true, store ++ [doc]) else some (false, store)

/-- A row of the `locations` table (also a cleaned row produced by
`transform_data` in load_locations.py): `(city_name, latitude, longitude)`. -/
structure LocationRow where
  city_name : String
  latitude : Int
  longitude : Int
deriving DecidableEq, Repr

/-- Python truthiness of `weather_data` in `main` (fetch_weather.py):
`None` is falsy, and so is an empty dict. -/
def truthy : Option JDoc → Bool
  | none => false
  | some d => !d.isEmpty

/-- The per-location loop of `main` (fetch_weather.py).  `fetchF`
models `fetch_weather_data` (the HTTP call: `none` is a request failure),
`mongoOkF` models Mongo availability during the load of that location,
`nowF` the `utcnow()` reading taken while processing that location.
Accumulates `success_count`, `fail_count` and the Mongo collection;
`none` is an uncaught exception aborting the whole run. -/
def runLocations (fetchF : LocationRow → Option JDoc) (mongoOkF : LocationRow → Bool)
    (nowF : LocationRow → Int) :
    List LocationRow → Nat → Nat → List JDoc → Option (Nat × Nat × List JDoc)
  | [], succ, failed, store => some (succ, failed, store)
  | loc :: rest, succ, failed, store =>
    if truthy (fetchF loc) then
      match transform_and_load_to_mongo (fetchF loc) loc.city_name (nowF loc)
          (mongoOkF loc) store with
      | none => none
      | some (true, store') =>
        runLocations fetchF mongoOkF nowF rest (succ + 1) failed store'
      | some (false, store') =>
        runLocations fetchF mongoOkF nowF rest succ (failed + 1) store'
    else
      runLocations fetchF mongoOkF nowF rest succ (failed + 1) store

/-- `main` (fetch_weather.py): aborts when the location list is empty,
otherwise runs the loop with zeroed counters over the given collection
state. -/
def mainRun (fetchF : LocationRow → Option JDoc) (mongoOkF : LocationRow → Bool)
    (nowF : LocationRow → Int) (locations : List LocationRow) (store : List JDoc) :
    Option (Nat × Nat × List JDoc) :=
  if locations.isEmpty then some (0, 0, store)
  else runLocations fetchF mongoOkF nowF locations 0 0 store

/-! ## load_locations.py: the Location Loader -/

/-- A raw CSV row after step (1) of `transform_data`, the projection to
the three used columns (`COLUMNS_TO_USE`).  The CSV is read with
`dtype=str`, so every cell is a string; `none` is a missing cell (NaN).
The rename step (2) maps `AccentCity`/`Latitude`/`Longitude` to
`city_name`/`latitude`/`longitude`. -/
structure RawRow where
  AccentCity : Option String
  Latitude : Option String
  Longitude : Option String
deriving DecidableEq, Repr

/-- Step (3) of `transform_data`: `dropna(subset=[city_name, latitude,
longitude])` keeps rows where all three cells are present. -/
def keptRows (df : List RawRow) : List RawRow :=
  df.filter (fun r => r.AccentCity.isSome && r.Latitude.isSome && r.Longitude.isSome)

/-- Decimal digit accumulator for `parseNum`. -/
def parseDigitsAux (acc : Nat) : List Char → Option Nat
  | [] => some acc
  | c :: cs => if c.isDigit then parseDigitsAux (10 * acc + (c.toNat - 48)) cs else none

/-- Numeric parsing of one cell, standing in for `pd.to_numeric` on one
value (coordinates are modelled as integers): an optional leading minus
sign followed by at least one digit; anything else is non-numeric. -/
def parseNum (s : String) : Option Int :=
  match s.data with
  | [] => none
  | '-' :: cs =>
    if cs.isEmpty then none
    else (parseDigitsAux 0 cs).map (fun n => -(n : Int))
  | cs => (parseDigitsAux 0 cs).map (fun n => (n : Int))

/-- Conversion of a single kept row: requires the name cell present and
both coordinate cells numeric. -/
def convertRow (r : RawRow) : Option LocationRow :=
  match r.AccentCity, r.Latitude.bind parseNum, r.Longitude.bind parseNum with
  | some name, some la, some lo => some ⟨name, la, lo⟩
  | _, _, _ => none

/-- Step (4) of `transform_data`: `pd.to_numeric` over the two coordinate
columns.  It raises on the first non-numeric value, so a single bad cell
fails the whole conversion (`none`), which the except branch turns into an
empty dataframe. -/
def convertRows : List RawRow → Option (List LocationRow)
  | [] => some []
  | r :: rs =>
    match convertRow r with
    | none => none
    | some x =>
      match convertRows rs with
      | none => none
      | some xs => some (x :: xs)

/-- Step (5) of `transform_data`: `drop_duplicates(subset=[city_name],
keep=first)` — keep the first row for each city name, in input order.
`seen` accumulates the names already kept. -/
def dedupByName (seen : List String) : List LocationRow → List LocationRow
  | [] => []
  | r :: rs =>
    if r.city_name ∈ seen then dedupByName seen rs
    else r :: dedupByName (r.city_name :: seen) rs

/-- `transform_data` (load_locations.py): project/rename (folded into
`RawRow`), drop rows with missing cells, convert the coordinate columns
(returning an empty dataframe if `pd.to_numeric` raises), then
deduplicate by name keeping the first occurrence. -/
def transform_data (df : List RawRow) : List LocationRow :=
  match convertRows (keptRows df) with
  | none => []
  | some rows => dedupByName [] rows

/-- Rows dropped by the `dropna` step. -/
def missing_drops (df : List RawRow) : Nat :=
  (df.filter (fun r =>
    !(r.AccentCity.isSome && r.Latitude.isSome && r.Longitude.isSome))).length

/-- Rows dropped because of the type-conversion step: when
`pd.to_numeric` raises, every row that survived `dropna` is discarded;
otherwise none are. -/
def conv_drops (df : List RawRow) : Nat :=
  match convertRows (keptRows df) with
  | none => (keptRows df).length
  | some _ => 0

/-- Rows dropped as duplicates by `drop_duplicates` (the
`original_count - new_count` the script prints). -/
def dup_drops (df : List RawRow) : Nat :=
  match convertRows (keptRows df) with
  | none => 0
  | some rows => rows.length - (dedupByName [] rows).length

/-- The insert loop of `load_data` (load_locations.py) inside one
transaction: each `cur.execute(INSERT ...)` adds the row to the
transaction's pending writes.  `failAt = some i` means the `i`-th execute
raises (store error / constraint violation); the exception aborts the
loop (`none`).  Rows never reach the table until `conn.commit()`. -/
def insertRows (pending : List LocationRow) :
    List LocationRow → Option Nat → Option (List LocationRow)
  | [], _ => some pending
  | _ :: _, some 0 => none
  | r :: rs, some (i + 1) => insertRows (pending ++ [r]) rs (some i)
  | r :: rs, none => insertRows (pending ++ [r]) rs none

/-- `load_data` (load_locations.py): runs the insert loop in one
transaction over the `locations` table (`store`).  On success,
`conn.commit()` makes the pending rows durable; on an error,
`conn.rollback()` discards them all, and the except branch reports
failure instead of re-raising.  Result: `(success, table after the call)`. -/
def load_data (store : List LocationRow) (df : List LocationRow) (failAt : Option Nat) :
    Bool × List LocationRow :=
  match insertRows [] df failAt with
  | none => (false, store)
  | some pending => (true, store ++ pending)

/-! ## Helper lemmas: the descending sort of the snapshot pipeline -/

theorem mem_insertDescByTs {a x : WeatherDoc} {l : List WeatherDoc} :
    a ∈ insertDescByTs x l ↔ a = x ∨ a ∈ l := by
  induction l with
  | nil => simp [insertDescByTs]
  | cons y ys ih =>
    by_cases h : y.fetch_timestamp ≤ x.fetch_timestamp
    · simp [insertDescByTs, h]
    · simp [insertDescByTs, h, ih]
      tauto

theorem mem_sortDescByTs {a : WeatherDoc} {l : List WeatherDoc} :
    a ∈ sortDescByTs l ↔ a ∈ l := by
  induction l with
  | nil => simp [sortDescByTs]
  | cons x xs ih => simp [sortDescByTs, mem_insertDescByTs, ih]

theorem pairwise_insertDescByTs {x : WeatherDoc} {l : List WeatherDoc}
    (h : l.Pairwise (fun a b => b.fetch_timestamp ≤ a.fetch_timestamp)) :
    (insertDescByTs x l).Pairwise (fun a b => b.fetch_timestamp ≤ a.fetch_timestamp) := by
  induction l with
  | nil => simp [insertDescByTs]
  | cons y ys ih =>
    rw [List.pairwise_cons] at h
    by_cases hc : y.fetch_timestamp ≤ x.fetch_timestamp
    · rw [insertDescByTs]
      simp only [hc, if_true]
      refine List.pairwise_cons.2 ⟨?_, List.pairwise_cons.2 h⟩
      intro z hz
      rcases List.mem_cons.1 hz with rfl | hz
      · exact hc
      · exact le_trans (h.1 z hz) hc
    · rw [insertDescByTs]
      simp only [hc, if_false]
      refine List.pairwise_cons.2 ⟨?_, ih h.2⟩
      intro z hz
      rcases mem_insertDescByTs.1 hz with rfl | hz
      · exact le_of_lt (lt_of_not_le hc)
      · exact h.1 z hz

theorem pairwise_sortDescByTs (l : List WeatherDoc) :
    (sortDescByTs l).Pairwise (fun a b => b.fetch_timestamp ≤ a.fetch_timestamp) := by
  induction l with
  | nil => simp [sortDescByTs]
  | cons x xs ih => exact pairwise_insertDescByTs ih

theorem filter_insertDescByTs {p : WeatherDoc → Bool} {t : Int}
    (hp : ∀ e, p e = true → e.fetch_timestamp = t) (x : WeatherDoc) (l : List WeatherDoc) :
    (insertDescByTs x l).filter p = if p x then x :: l.filter p else l.filter p := by
  induction l with
  | nil => simp [insertDescByTs, List.filter_cons]
  | cons y ys ih =>
    by_cases hc : y.fetch_timestamp ≤ x.fetch_timestamp
    · rw [insertDescByTs]
      simp [hc, List.filter_cons]
    · rw [insertDescByTs]
      simp only [hc, if_false, List.filter_cons]
      by_cases hy : p y = true
      · have hx : ¬ p x = true := by
          intro hx
          exact hc (le_of_eq ((hp y hy).trans (hp x hx).symm))
        simp [hy, hx, ih]
      · simp [hy, ih]

theorem filter_sortDescByTs {p : WeatherDoc → Bool} {t : Int}
    (hp : ∀ e, p e = true → e.fetch_timestamp = t) (l : List WeatherDoc) :
    (sortDescByTs l).filter p = l.filter p := by
  induction l with
  | nil => rfl
  | cons x xs ih =>
    rw [sortDescByTs, filter_insertDescByTs hp, ih, List.filter_cons]

/-! ## Helper lemmas: the ascending sort of the history query -/

theorem perm_insertAscByTs (x : WeatherDoc) (l : List WeatherDoc) :
    (insertAscByTs x l).Perm (x :: l) := by
  induction l with
  | nil => simp [insertAscByTs]
  | cons y ys ih =>
    by_cases h : x.fetch_timestamp ≤ y.fetch_timestamp
    · simp [insertAscByTs, h]
    · rw [insertAscByTs]
      simp only [h, if_false]
      exact (ih.cons y).trans (List.Perm.swap x y ys)

theorem perm_sortAscByTs (l : List WeatherDoc) : (sortAscByTs l).Perm l := by
  induction l with
  | nil => simp [sortAscByTs]
  | cons x xs ih => exact (perm_insertAscByTs x (sortAscByTs xs)).trans (ih.cons x)

theorem mem_insertAscByTs {a x : WeatherDoc} {l : List WeatherDoc} :
    a ∈ insertAscByTs x l ↔ a = x ∨ a ∈ l := by
  rw [(perm_insertAscByTs x l).mem_iff]
  simp

theorem pairwise_insertAscByTs {x : WeatherDoc} {l : List WeatherDoc}
    (h : l.Pairwise (fun a b => a.fetch_timestamp ≤ b.fetch_timestamp)) :
    (insertAscByTs x l).Pairwise (fun a b => a.fetch_timestamp ≤ b.fetch_timestamp) := by
  induction l with
  | nil => simp [insertAscByTs]
  | cons y ys ih =>
    rw [List.pairwise_cons] at h
    by_cases hc : x.fetch_timestamp ≤ y.fetch_timestamp
    · rw [insertAscByTs]
      simp only [hc, if_true]
      refine List.pairwise_cons.2 ⟨?_, List.pairwise_cons.2 h⟩
      intro z hz
      rcases List.mem_cons.1 hz with rfl | hz
      · exact hc
      · exact le_trans hc (h.1 z hz)
    · rw [insertAscByTs]
      simp only [hc, if_false]
      refine List.pairwise_cons.2 ⟨?_, ih h.2⟩
      intro z hz
      rcases mem_insertAscByTs.1 hz with rfl | hz
      · exact le_of_lt (lt_of_not_le hc)
      · exact h.1 z hz

theorem pairwise_sortAscByTs (l : List WeatherDoc) :
    (sortAscByTs l).Pairwise (fun a b => a.fetch_timestamp ≤ b.fetch_timestamp) := by
  induction l with
  | nil => simp [sortAscByTs]
  | cons x xs ih => exact pairwise_insertAscByTs ih

/-! ## Helper lemmas: generic facts about `List.find?` -/

theorem find?_eq_head?_filter {α : Type} (p : α → Bool) (l : List α) :
    l.find? p = (l.filter p).head? := by
  induction l with
  | nil => rfl
  | cons x xs ih =>
    by_cases h : p x = true
    · rw [List.find?_cons_of_pos _ h, List.filter_cons]
      simp [h]
    · rw [List.find?_cons_of_neg _ h, List.filter_cons, ih]
      simp [h]

theorem find?_pairwise_rel {α : Type} {R : α → α → Prop} {p : α → Bool}
    {l : List α} {d e : α} (hl : l.Pairwise R) (hd : l.find? p = some d)
    (he : e ∈ l) (hpe : p e = true) : e = d ∨ R d e := by
  induction l with
  | nil => cases he
  | cons x xs ih =>
    rw [List.pairwise_cons] at hl
    by_cases hx : p x = true
    · rw [List.find?_cons_of_pos _ hx] at hd
      cases hd
      rcases List.mem_cons.1 he with he | he
      · exact Or.inl he
      · exact Or.inr (hl.1 e he)
    · rw [List.find?_cons_of_neg _ hx] at hd
      rcases List.mem_cons.1 he with rfl | he
      · exact absurd hpe hx
      · exact ih hl.2 hd he

theorem find?_strengthen {α : Type} {p q : α → Bool} {l : List α} {d : α}
    (hq : l.find? q = some d) (hpd : p d = true)
    (himp : ∀ e, p e = true → q e = true) : l.find? p = some d := by
  induction l with
  | nil => cases hq
  | cons x xs ih =>
    by_cases hx : q x = true
    · rw [List.find?_cons_of_pos _ hx] at hq
      cases hq
      rw [List.find?_cons_of_pos _ hpd]
    · rw [List.find?_cons_of_neg _ hx] at hq
      have hpx : ¬ p x = true := fun hp => hx (himp x hp)
      rw [List.find?_cons_of_neg _ hpx]
      exact ih hq

/-! ## Helper lemmas: the `$group`/`$first` stage -/

theorem mem_groupFirstByCity {seen : List String} {l : List WeatherDoc}
    {k : String} {d : WeatherDoc} :
    (k, d) ∈ groupFirstByCity seen l ↔
      k ∉ seen ∧ l.find? (fun e => e.city_name_clean == k) = some d := by
  induction l generalizing seen with
  | nil => simp [groupFirstByCity]
  | cons x xs ih =>
    by_cases hx : x.city_name_clean ∈ seen
    · rw [groupFirstByCity]
      simp only [hx, if_true]
      rw [ih]
      by_cases hk : k = x.city_name_clean
      · subst hk
        simp [hx]
      · have hfalse : ¬ ((fun e => e.city_name_clean == k) x = true) := by
          simp only [beq_iff_eq]
          exact fun h => hk h.symm
        rw [@List.find?_cons_of_neg _ (fun e => e.city_name_clean == k) x xs hfalse]
    · rw [groupFirstByCity]
      simp only [hx, if_false, List.mem_cons]
      rw [ih]
      by_cases hk : k = x.city_name_clean
      · subst hk
        have hpos : (fun (e : WeatherDoc) => e.city_name_clean == x.city_name_clean) x = true := by
          simp
        rw [@List.find?_cons_of_pos _ (fun e => e.city_name_clean == x.city_name_clean) x xs hpos]
        constructor
        · rintro (h | h)
          · cases h
            exact ⟨hx, rfl⟩
          · exact absurd (List.mem_cons_self x.city_name_clean seen) h.1
        · rintro ⟨-, h⟩
          cases h
          exact Or.inl rfl
      · have hne : ((k, d) : String × WeatherDoc) ≠ (x.city_name_clean, x) := by
          intro h
          exact hk (congrArg Prod.fst h)
        have hfalse : ¬ ((fun e => e.city_name_clean == k) x = true) := by
          simp only [beq_iff_eq]
          exact fun h => hk h.symm
        rw [@List.find?_cons_of_neg _ (fun e => e.city_name_clean == k) x xs hfalse]
        constructor
        · rintro (h | h)
          · exact absurd h hne
          · refine ⟨?_, h.2⟩
            intro hmem
            exact h.1 (List.mem_cons_of_mem _ hmem)
        · rintro ⟨hks, h⟩
          refine Or.inr ⟨?_, h⟩
          intro hmem
          rcases List.mem_cons.1 hmem with h' | h'
          · exact hk h'
          · exact hks h'

/-! ## Claim C1: latest snapshot per location key -/

/-- C1 (counterexample to the stated tie-break): over a log holding two
"Lagos" observations with the same timestamp 10 (temps 30 then 31), the
snapshot pipeline keeps the first-inserted one (temp 30), not the most
recently inserted one (temp 31) that the claim requires.  The `$sort`
stage is modelled as a stable sort, so documents with equal timestamps
stay in insertion order and `$first` takes the earliest-inserted. -/
theorem latestSnapshot_tiebreak_counterexample :
    (get_latest_weather_from_mongo [⟨"Lagos", 10, 30⟩, ⟨"Lagos", 10, 31⟩]).1
      = [("Lagos", ⟨"Lagos", 10, 30⟩)] ∧
    (⟨"Lagos", 10, 30⟩ : WeatherDoc) ≠ ⟨"Lagos", 10, 31⟩ := by
  decide

/-- C1 (amended): for every observation log, `latestSnapshot` returns
exactly one entry per `location_key` that appears in the log (and none
for keys that do not), and that entry is an observation of that key from
the log with the maximum `fetch_timestamp`; ties on equal timestamps are
broken in favour of the EARLIEST inserted observation (it is the first
document of the log carrying that key and that timestamp).  The Lagos
example of the claim (distinct timestamps 10 and 20) holds as stated. -/
theorem latestSnapshot_per_key_max (log : List WeatherDoc) :
    (∀ k d, (k, d) ∈ (get_latest_weather_from_mongo log).1 →
      d ∈ log ∧ d.city_name_clean = k ∧
      (∀ e ∈ log, e.city_name_clean = k → e.fetch_timestamp ≤ d.fetch_timestamp) ∧
      log.find? (fun e => e.city_name_clean == k && e.fetch_timestamp == d.fetch_timestamp)
        = some d) ∧
    (∀ k, (∃ d ∈ log, d.city_name_clean = k) ↔
      ∃ d, (k, d) ∈ (get_latest_weather_from_mongo log).1) ∧
    (∀ k d d', (k, d) ∈ (get_latest_weather_from_mongo log).1 →
      (k, d') ∈ (get_latest_weather_from_mongo log).1 → d = d') ∧
    (get_latest_weather_from_mongo [⟨"Lagos", 10, 30⟩, ⟨"Lagos", 20, 32⟩]).1
      = [("Lagos", ⟨"Lagos", 20, 32⟩)] := by
  refine ⟨?_, ?_, ?_, by decide⟩
  · intro k d h
    have hfind := (mem_groupFirstByCity.1 h).2
    have hd_mem : d ∈ log := mem_sortDescByTs.1 (List.mem_of_find?_eq_some hfind)
    have hd_city : d.city_name_clean = k := by
      have := List.find?_some hfind
      simpa [beq_iff_eq] using this
    refine ⟨hd_mem, hd_city, ?_, ?_⟩
    · intro e he hek
      have he' : e ∈ sortDescByTs log := mem_sortDescByTs.2 he
      have hpe : (fun x => x.city_name_clean == k) e = true := by
        simp [hek]
      rcases find?_pairwise_rel (pairwise_sortDescByTs log) hfind he' hpe with rfl | hrel
      · exact le_refl _
      · exact hrel
    · have hpd : (fun e : WeatherDoc =>
            e.city_name_clean == k && e.fetch_timestamp == d.fetch_timestamp) d = true := by
        simp [hd_city]
      have himp : ∀ e : WeatherDoc,
          (fun e : WeatherDoc =>
            e.city_name_clean == k && e.fetch_timestamp == d.fetch_timestamp) e = true →
          (fun e : WeatherDoc => e.city_name_clean == k) e = true := by
        intro e he
        simp only [Bool.and_eq_true] at he
        exact he.1
      have hs := find?_strengthen hfind hpd himp
      have hp : ∀ e : WeatherDoc,
          (fun e : WeatherDoc =>
            e.city_name_clean == k && e.fetch_timestamp == d.fetch_timestamp) e = true →
          e.fetch_timestamp = d.fetch_timestamp := by
        intro e he
        simp only [Bool.and_eq_true, beq_iff_eq] at he
        exact he.2
      rw [find?_eq_head?_filter, ← filter_sortDescByTs hp, ← find?_eq_head?_filter]
      exact hs
  · intro k
    constructor
    · rintro ⟨d, hd, hk⟩
      have hsome : ((sortDescByTs log).find? (fun e => e.city_name_clean == k)).isSome
          = true := by
        rw [List.find?_isSome]
        exact ⟨d, mem_sortDescByTs.2 hd, by simp [hk]⟩
      rcases Option.isSome_iff_exists.1 hsome with ⟨d', hd'⟩
      exact ⟨d', mem_groupFirstByCity.2 ⟨List.not_mem_nil k, hd'⟩⟩
    · rintro ⟨d, h⟩
      have hfind := (mem_groupFirstByCity.1 h).2
      have hd_mem : d ∈ log := mem_sortDescByTs.1 (List.mem_of_find?_eq_some hfind)
      have hd_city : d.city_name_clean = k := by
        have := List.find?_some hfind
        simpa [beq_iff_eq] using this
      exact ⟨d, hd_mem, hd_city⟩
  · intro k d d' h h'
    have h1 := (mem_groupFirstByCity.1 h).2
    have h2 := (mem_groupFirstByCity.1 h').2
    rw [h1] at h2
    exact (Option.some.injEq _ _ ▸ h2).symm ▸ rfl

/-- C1 witness: instantiating the amended theorem on the two-entry Lagos
log: the snapshot entry for "Lagos" is the first (and here only) log
document with key "Lagos" and timestamp 20. -/
theorem latestSnapshot_per_key_max_witness :
    ([⟨"Lagos", 10, 30⟩, ⟨"Lagos", 20, 32⟩] : List WeatherDoc).find?
      (fun e => e.city_name_clean == "Lagos" && e.fetch_timestamp == 20)
      = some ⟨"Lagos", 20, 32⟩ :=
  ((latestSnapshot_per_key_max [⟨"Lagos", 10, 30⟩, ⟨"Lagos", 20, 32⟩]).1 "Lagos"
      ⟨"Lagos", 20, 32⟩ (by decide)).2.2.2

/-! ## Claim C5: history for one location -/

/-- C5: `history(locationKey)` returns all observations stored for that
key (a permutation of the key's documents, projected to `(timestamp,
temperature)`), ordered ascending by `fetch_timestamp`; a key with no
observations yields the empty sequence rather than an error, and BOTH
aggregation queries — the history query and the latest-snapshot query —
return the observation log unchanged.  The spec's concrete Lagos
history example also holds. -/
theorem history_spec (log : List WeatherDoc) (selected_city : String) :
    ((get_city_history_from_mongo log selected_city).1.Pairwise (fun a b => a.1 ≤ b.1)) ∧
    ((get_city_history_from_mongo log selected_city).1.Perm
      ((log.filter (fun e => e.city_name_clean == selected_city)).map
        (fun d => (d.fetch_timestamp, d.temp)))) ∧
    ((∀ e ∈ log, e.city_name_clean ≠ selected_city) →
      (get_city_history_from_mongo log selected_city).1 = []) ∧
    ((get_city_history_from_mongo log selected_city).2 = log) ∧
    ((get_latest_weather_from_mongo log).2 = log) ∧
    (get_city_history_from_mongo [⟨"Lagos", 10, 30⟩, ⟨"Lagos", 20, 32⟩] "Lagos").1
      = [(10, 30), (20, 32)] := by
  refine ⟨?_, ?_, ?_, rfl, rfl, by decide⟩
  · exact List.Pairwise.map _ (fun a b h => h)
      (pairwise_sortAscByTs (log.filter (fun e => e.city_name_clean == selected_city)))
  · exact (perm_sortAscByTs _).map _
  · intro hnone
    have hfil : log.filter (fun e => e.city_name_clean == selected_city) = [] := by
      rw [List.filter_eq_nil_iff]
      intro e he
      simp [hnone e he]
    show (sortAscByTs (log.filter (fun e => e.city_name_clean == selected_city))).map _ = []
    rw [hfil]
    rfl

/-- C5 witness: instantiating the theorem where the key "Unknown" has no
observations: the history query returns the empty sequence. -/
theorem history_spec_witness :
    (get_city_history_from_mongo [⟨"Lagos", 20, 32⟩] "Unknown").1 = [] :=
  (history_spec [⟨"Lagos", 20, 32⟩] "Unknown").2.2.1 (by decide)


/-! ## Helper lemmas: dictionary operations -/

theorem getField_setField_self (d : JDoc) (k : String) (v : JVal) :
    getField (setField d k v) k = some v := by
  induction d with
  | nil => simp [setField, getField]
  | cons kv rest ih =>
    obtain ⟨k', w⟩ := kv
    by_cases h : k' = k
    · simp [setField, getField, h]
    · simp [setField, getField, h, ih]

theorem getField_setField_ne (d : JDoc) {k k' : String} (v : JVal) (h : k ≠ k') :
    getField (setField d k' v) k = getField d k := by
  have h' : k' ≠ k := Ne.symm h
  induction d with
  | nil => simp [setField, getField, h']
  | cons kv rest ih =>
    obtain ⟨k0, w⟩ := kv
    by_cases h0 : k0 = k'
    · subst h0
      simp [setField, getField, h']
    · by_cases h1 : k0 = k
      · subst h1
        simp [setField, getField, h]
      · simp [setField, getField, h0, h1, ih]

theorem setField_of_getField_none {d : JDoc} {k : String} (h : getField d k = none)
    (v : JVal) : setField d k v = d ++ [(k, v)] := by
  induction d with
  | nil => simp [setField]
  | cons kv rest ih =>
    obtain ⟨k0, w⟩ := kv
    rw [getField] at h
    by_cases h0 : k0 = k
    · simp [h0] at h
    · simp only [h0, if_false] at h
      simp [setField, h0, ih h]

theorem getField_append_of_some {d : JDoc} {k : String} {v : JVal}
    (h : getField d k = some v) (e : JDoc) : getField (d ++ e) k = some v := by
  induction d with
  | nil => simp [getField] at h
  | cons kv rest ih =>
    obtain ⟨k0, w⟩ := kv
    rw [getField] at h
    by_cases h0 : k0 = k
    · simp only [h0, if_true] at h
      simp [getField, h0, h]
    · simp only [h0, if_false] at h
      simp [getField, h0, ih h]

theorem getField_append_of_none {d : JDoc} {k : String}
    (h : getField d k = none) (e : JDoc) : getField (d ++ e) k = getField e k := by
  induction d with
  | nil => simp
  | cons kv rest ih =>
    obtain ⟨k0, w⟩ := kv
    rw [getField] at h
    by_cases h0 : k0 = k
    · simp [h0] at h
    · simp only [h0, if_false] at h
      simp [getField, h0, ih h]

theorem getField_taggedDoc_other (d : JDoc) (c : String) (t : Int) {k : String}
    (h1 : k ≠ "fetch_timestamp") (h2 : k ≠ "city_name_clean") :
    getField (taggedDoc d c t) k = getField d k := by
  rw [taggedDoc, getField_setField_ne _ _ h2, getField_setField_ne _ _ h1]

theorem getField_taggedDoc_fetch_timestamp (d : JDoc) (c : String) (t : Int) :
    getField (taggedDoc d c t) "fetch_timestamp" = some (JVal.num t) := by
  rw [taggedDoc, getField_setField_ne _ _ (by decide), getField_setField_self]

theorem taggedDoc_of_fresh {d : JDoc} (c : String) (t : Int)
    (hft : getField d "fetch_timestamp" = none)
    (hcn : getField d "city_name_clean" = none) :
    taggedDoc d c t = d ++ [("fetch_timestamp", JVal.num t),
      ("city_name_clean", JVal.str c)] := by
  rw [taggedDoc, setField_of_getField_none hft]
  have hcn' : getField (d ++ [("fetch_timestamp", JVal.num t)]) "city_name_clean" = none := by
    rw [getField_append_of_none hcn]
    rfl
  rw [setField_of_getField_none hcn']
  simp

/-! ## Helper lemmas: case analysis of the transform -/

theorem transformPayload_coord_none {d : JDoc} (c : String) (t : Int)
    (hco : getField d "coord" = none) :
    transformPayload d c t = some (taggedDoc d c t) := by
  rw [transformPayload, getField_taggedDoc_other d c t (by decide) (by decide), hco]

theorem transformPayload_coord_obj {d : JDoc} (c : String) (t : Int)
    {cf : List (String × JVal)} (hco : getField d "coord" = some (JVal.obj cf)) :
    transformPayload d c t =
      (match getField cf "lon", getField cf "lat" with
      | some lonv, some latv =>
        some (setField (taggedDoc d c t) "geojson_location"
          (JVal.obj [("type", JVal.str "Point"),
                     ("coordinates", JVal.arr [lonv, latv])]))
      | _, _ => none) := by
  rw [transformPayload, getField_taggedDoc_other d c t (by decide) (by decide), hco]

theorem transformPayload_coord_nonobj {d : JDoc} (c : String) (t : Int)
    {cv : JVal} (hco : getField d "coord" = some cv)
    (hno : ∀ cf, cv ≠ JVal.obj cf) :
    transformPayload d c t = none := by
  rw [transformPayload, getField_taggedDoc_other d c t (by decide) (by decide), hco]
  cases cv with
  | obj cf => exact absurd rfl (hno cf)
  | null => rfl
  | bool b => rfl
  | num n => rfl
  | str s => rfl
  | arr es => rfl

/-! ## Claim C6: the transform on optional payload fields -/

/-- C6 (counterexample): `[("coord", obj [])]` is a well-formed
structured payload, yet the transform raises (the `data["coord"]["lon"]`
subscript throws KeyError) instead of producing an observation — so the
transform does fail on some well-formed payload shapes. -/
theorem transform_raises_counterexample :
    transformPayload [("coord", JVal.obj [])] "Lagos" 0 = none := rfl

/-- C6 (amended): the transform never fails on a payload whose `coord`
field, when present, is an object containing both `lon` and `lat`:
with `coord` absent it succeeds and adds no `geojson_location` (the
point is left unset), and with such a `coord` present it succeeds and
derives the GeoJSON point from the payload's coordinates, in
`[longitude, latitude]` order.  Other optional fields (such as the
condition text) are never inspected, so their absence cannot cause a
failure.  A payload whose `coord` is present but not an object, or
lacking `lon`/`lat`, makes the transform raise instead. -/
theorem transform_total_on_wellformed_coord (d : JDoc) (c : String) (t : Int) :
    (getField d "coord" = none →
      transformPayload d c t = some (taggedDoc d c t) ∧
      (getField d "geojson_location" = none →
        ∀ out, transformPayload d c t = some out →
          getField out "geojson_location" = none)) ∧
    (∀ cf lonv latv, getField d "coord" = some (JVal.obj cf) →
      getField cf "lon" = some lonv → getField cf "lat" = some latv →
      transformPayload d c t =
        some (setField (taggedDoc d c t) "geojson_location"
          (JVal.obj [("type", JVal.str "Point"),
                     ("coordinates", JVal.arr [lonv, latv])]))) := by
  constructor
  · intro hco
    refine ⟨transformPayload_coord_none c t hco, ?_⟩
    intro hgeo out hout
    rw [transformPayload_coord_none c t hco] at hout
    cases hout
    rw [getField_taggedDoc_other d c t (by decide) (by decide)]
    exact hgeo
  · intro cf lonv latv hco hlon hlat
    rw [transformPayload_coord_obj c t hco, hlon, hlat]

/-- C6 witness: instantiating the amended theorem on a coord-free payload
and on a payload with a full coord object. -/
theorem transform_total_on_wellformed_coord_witness :
    transformPayload [("x", JVal.null)] "Lagos" 7 =
      some (taggedDoc [("x", JVal.null)] "Lagos" 7) ∧
    transformPayload [("coord", JVal.obj [("lon", JVal.num 3), ("lat", JVal.num 6)])] "L" 7 =
      some (setField
        (taggedDoc [("coord", JVal.obj [("lon", JVal.num 3), ("lat", JVal.num 6)])] "L" 7)
        "geojson_location"
        (JVal.obj [("type", JVal.str "Point"),
                   ("coordinates", JVal.arr [JVal.num 3, JVal.num 6])])) :=
  ⟨((transform_total_on_wellformed_coord [("x", JVal.null)] "Lagos" 7).1 rfl).1,
   (transform_total_on_wellformed_coord
      [("coord", JVal.obj [("lon", JVal.num 3), ("lat", JVal.num 6)])] "L" 7).2
     [("lon", JVal.num 3), ("lat", JVal.num 6)] (JVal.num 3) (JVal.num 6) rfl rfl rfl⟩

/-! ## Claim C8: the transform is pure and uses the caller clock -/

/-- C8: the transform is deterministic in its three inputs (payload,
location key, clock reading), and whenever it produces an observation,
that observation's `fetch_timestamp` is exactly the clock reading taken
at the call — even when the raw payload already carries a
`fetch_timestamp` field, the payload's value is overwritten and never
used. -/
theorem transform_pure_and_clock_sourced :
    (∀ (d d' : JDoc) (c c' : String) (t t' : Int), d = d' → c = c' → t = t' →
      transformPayload d c t = transformPayload d' c' t') ∧
    (∀ (d : JDoc) (c : String) (t : Int) (out : JDoc),
      transformPayload d c t = some out →
      getField out "fetch_timestamp" = some (JVal.num t)) := by
  constructor
  · intro d d' c c' t t' hd hc ht
    rw [hd, hc, ht]
  · intro d c t out h
    cases hco : getField d "coord" with
    | none =>
      rw [transformPayload_coord_none c t hco] at h
      cases h
      exact getField_taggedDoc_fetch_timestamp d c t
    | some cv =>
      cases cv with
      | obj cf =>
        rw [transformPayload_coord_obj c t hco] at h
        cases hlon : getField cf "lon" with
        | none => rw [hlon] at h; cases h
        | some lonv =>
          rw [hlon] at h
          cases hlat : getField cf "lat" with
          | none => rw [hlat] at h; cases h
          | some latv =>
            rw [hlat] at h
            cases h
            rw [getField_setField_ne _ _ (by decide)]
            exact getField_taggedDoc_fetch_timestamp d c t
      | null => rw [transformPayload_coord_nonobj c t hco (fun cf => by intro hh; cases hh)] at h; cases h
      | bool b => rw [transformPayload_coord_nonobj c t hco (fun cf => by intro hh; cases hh)] at h; cases h
      | num n => rw [transformPayload_coord_nonobj c t hco (fun cf => by intro hh; cases hh)] at h; cases h
      | str s => rw [transformPayload_coord_nonobj c t hco (fun cf => by intro hh; cases hh)] at h; cases h
      | arr es => rw [transformPayload_coord_nonobj c t hco (fun cf => by intro hh; cases hh)] at h; cases h

/-- C8 witness: a payload that already carries `fetch_timestamp: 0` is
transformed with clock reading 7, and the produced observation's
`fetch_timestamp` is 7, the caller-side clock value, not the payload's 0. -/
theorem transform_pure_and_clock_sourced_witness :
    getField (taggedDoc [("fetch_timestamp", JVal.num 0)] "L" 7)
      "fetch_timestamp" = some (JVal.num 7) :=
  transform_pure_and_clock_sourced.2 [("fetch_timestamp", JVal.num 0)] "L" 7
    (taggedDoc [("fetch_timestamp", JVal.num 0)] "L" 7) rfl

/-! ## Claim C10: the stored document vs the raw payload -/

/-- C10 (counterexample): for the payload `{"fetch_timestamp": 0}` the
stored document does NOT contain that payload field with its value
unchanged — the transform overwrites it with the clock reading 5 — so
the claim's universal "every field of the raw payload with its value
unchanged" fails for payloads already carrying one of the metadata field
names. -/
theorem sink_overwrites_payload_field_counterexample :
    transform_and_load_to_mongo (some [("fetch_timestamp", JVal.num 0)]) "X" 5 true [] =
      some (true, [[("fetch_timestamp", JVal.num 5), ("city_name_clean", JVal.str "X")]]) ∧
    JVal.num 5 ≠ JVal.num 0 := by
  constructor
  · rfl
  · intro h
    injection h with h'
    exact absurd h' (by decide)

/-- C10 (amended): when the raw payload carries none of the three
metadata field names (`fetch_timestamp`, `city_name_clean`,
`geojson_location`) and its `coord` field, when present, is an object
with `lon` and `lat`, the document stored by the transform-and-sink step
is exactly the payload followed by the added fields: `fetch_timestamp`,
`city_name_clean`, and — only when the payload carries coordinates —
`geojson_location` with coordinates `[longitude, latitude]`; every
payload field reads back unchanged from the stored document.  When the
payload is `None`, the step writes nothing and reports failure. -/
theorem sink_document_frame (d : JDoc) (c : String) (t : Int) (store : List JDoc) :
    (∀ mongoOk, transform_and_load_to_mongo none c t mongoOk store = some (false, store)) ∧
    (getField d "fetch_timestamp" = none → getField d "city_name_clean" = none →
      getField d "coord" = none →
      transform_and_load_to_mongo (some d) c t true store =
        some (true, store ++ [d ++ [("fetch_timestamp", JVal.num t),
          ("city_name_clean", JVal.str c)]])) ∧
    (∀ cf lonv latv, getField d "fetch_timestamp" = none →
      getField d "city_name_clean" = none → getField d "geojson_location" = none →
      getField d "coord" = some (JVal.obj cf) →
      getField cf "lon" = some lonv → getField cf "lat" = some latv →
      transform_and_load_to_mongo (some d) c t true store =
        some (true, store ++ [d ++ [("fetch_timestamp", JVal.num t),
          ("city_name_clean", JVal.str c),
          ("geojson_location", JVal.obj [("type", JVal.str "Point"),
            ("coordinates", JVal.arr [lonv, latv])])]])) ∧
    (∀ k v, getField d k = some v → ∀ extra, getField (d ++ extra) k = some v) := by
  refine ⟨fun mongoOk => rfl, ?_, ?_, fun k v h extra => getField_append_of_some h extra⟩
  · intro hft hcn hco
    have htr := transformPayload_coord_none c t hco
    rw [taggedDoc_of_fresh c t hft hcn] at htr
    simp only [transform_and_load_to_mongo, htr, if_true]
  · intro cf lonv latv hft hcn hgeo hco hlon hlat
    have htr : transformPayload d c t =
        some (setField (taggedDoc d c t) "geojson_location"
          (JVal.obj [("type", JVal.str "Point"),
                     ("coordinates", JVal.arr [lonv, latv])])) := by
      rw [transformPayload_coord_obj c t hco, hlon, hlat]
    have hgeo' : getField (taggedDoc d c t) "geojson_location" = none := by
      rw [getField_taggedDoc_other d c t (by decide) (by decide)]
      exact hgeo
    rw [setField_of_getField_none hgeo', taggedDoc_of_fresh c t hft hcn] at htr
    simp only [transform_and_load_to_mongo, htr, if_true, List.append_assoc,
      List.cons_append, List.nil_append]

/-- C10 witness: instantiating the amended theorem on the payload
`{"temp": 30}` (no coord, no metadata names): the stored document is the
payload plus exactly the two added metadata fields. -/
theorem sink_document_frame_witness :
    transform_and_load_to_mongo (some [("temp", JVal.num 30)]) "L" 7 true [] =
      some (true, [[("temp", JVal.num 30), ("fetch_timestamp", JVal.num 7),
        ("city_name_clean", JVal.str "L")]]) :=
  (sink_document_frame [("temp", JVal.num 30)] "L" 7 []).2.1 rfl rfl rfl

/-! ## Helper lemmas: the orchestrator loop -/

theorem runLocations_counts (fetchF : LocationRow → Option JDoc)
    (mongoOkF : LocationRow → Bool) (nowF : LocationRow → Int) :
    ∀ (locs : List LocationRow) (succ failed : Nat) (store : List JDoc)
      (res : Nat × Nat × List JDoc),
      runLocations fetchF mongoOkF nowF locs succ failed store = some res →
      res.1 + res.2.1 = succ + failed + locs.length := by
  intro locs
  induction locs with
  | nil =>
    intro succ failed store res h
    rw [runLocations] at h
    cases h
    simp
  | cons loc rest ih =>
    intro succ failed store res h
    rw [runLocations] at h
    by_cases ht : truthy (fetchF loc) = true
    · rw [if_pos ht] at h
      cases hres : transform_and_load_to_mongo (fetchF loc) loc.city_name (nowF loc)
          (mongoOkF loc) store with
      | none => rw [hres] at h; cases h
      | some pr =>
        obtain ⟨b, store'⟩ := pr
        rw [hres] at h
        cases b with
        | true =>
          have := ih (succ + 1) failed store' res h
          simp only [List.length_cons]
          omega
        | false =>
          have := ih succ (failed + 1) store' res h
          simp only [List.length_cons]
          omega
    · rw [if_neg ht] at h
      have := ih succ (failed + 1) store res h
      simp only [List.length_cons]
      omega

/-! ## Claim C4: per-location failure isolation in the orchestrator -/

/-- C4: for every orchestrator run the success and failure counts
partition the attempted locations, and in the claim's concrete scenario —
three locations where the fetch for location 2 fails while locations 1
and 3 fetch, transform and sink normally — the run returns counts
(succeeded 2, failed 1) over 3 attempted locations, and the observations
of locations 1 and 3 are both present in the resulting log: the one
failure affects neither. -/
theorem orchestrator_per_location_isolation
    (fetchF : LocationRow → Option JDoc) (mongoOkF : LocationRow → Bool)
    (nowF : LocationRow → Int) (l1 l2 l3 : LocationRow) (p1 p3 d1 d3 : JDoc)
    (store : List JDoc)
    (hf1 : fetchF l1 = some p1) (hp1 : p1 ≠ [])
    (ht1 : transformPayload p1 l1.city_name (nowF l1) = some d1)
    (hm1 : mongoOkF l1 = true)
    (hf2 : truthy (fetchF l2) = false)
    (hf3 : fetchF l3 = some p3) (hp3 : p3 ≠ [])
    (ht3 : transformPayload p3 l3.city_name (nowF l3) = some d3)
    (hm3 : mongoOkF l3 = true) :
    mainRun fetchF mongoOkF nowF [l1, l2, l3] store
      = some (2, 1, store ++ [d1, d3]) ∧
    ([l1, l2, l3] : List LocationRow).length = 3 ∧
    d1 ∈ store ++ [d1, d3] ∧ d3 ∈ store ++ [d1, d3] ∧
    (∀ (locs : List LocationRow) (succ failed : Nat) (st : List JDoc) res,
      runLocations fetchF mongoOkF nowF locs succ failed st = some res →
      res.1 + res.2.1 = succ + failed + locs.length) := by
  refine ⟨?_, rfl, by simp, by simp, runLocations_counts fetchF mongoOkF nowF⟩
  have htr1 : truthy (fetchF l1) = true := by
    rw [hf1]
    cases p1 with
    | nil => exact absurd rfl hp1
    | cons a as => rfl
  have htr3 : truthy (fetchF l3) = true := by
    rw [hf3]
    cases p3 with
    | nil => exact absurd rfl hp3
    | cons a as => rfl
  have hstep1 : transform_and_load_to_mongo (fetchF l1) l1.city_name (nowF l1)
      (mongoOkF l1) store = some (true, store ++ [d1]) := by
    rw [hf1, hm1]
    simp only [transform_and_load_to_mongo, ht1, if_true]
  have hstep3 : transform_and_load_to_mongo (fetchF l3) l3.city_name (nowF l3)
      (mongoOkF l3) (store ++ [d1]) = some (true, (store ++ [d1]) ++ [d3]) := by
    rw [hf3, hm3]
    simp only [transform_and_load_to_mongo, ht3, if_true]
  show runLocations fetchF mongoOkF nowF [l1, l2, l3] 0 0 store
    = some (2, 1, store ++ [d1, d3])
  rw [runLocations, if_pos htr1, hstep1]
  show runLocations fetchF mongoOkF nowF [l2, l3] 1 0 (store ++ [d1])
    = some (2, 1, store ++ [d1, d3])
  rw [runLocations, if_neg (by rw [hf2]; exact Bool.false_ne_true)]
  rw [runLocations, if_pos htr3, hstep3]
  show runLocations fetchF mongoOkF nowF [] 2 1 ((store ++ [d1]) ++ [d3])
    = some (2, 1, store ++ [d1, d3])
  rw [runLocations]
  simp

/-- C4 witness: instantiating the theorem on a concrete three-city run
where the fetch for the second city returns `None`: counts (2, 1) and
both successful observations in the log. -/
theorem orchestrator_per_location_isolation_witness :
    mainRun
      (fun loc => if loc.city_name = "A" then some [("main", JVal.obj [("temp", JVal.num 30)])]
        else if loc.city_name = "C" then some [("main", JVal.obj [("temp", JVal.num 25)])]
        else none)
      (fun _ => true) (fun _ => 9)
      [⟨"A", 1, 2⟩, ⟨"B", 3, 4⟩, ⟨"C", 5, 6⟩] []
      = some (2, 1,
        [[("main", JVal.obj [("temp", JVal.num 30)]), ("fetch_timestamp", JVal.num 9),
          ("city_name_clean", JVal.str "A")],
         [("main", JVal.obj [("temp", JVal.num 25)]), ("fetch_timestamp", JVal.num 9),
          ("city_name_clean", JVal.str "C")]]) :=
  (orchestrator_per_location_isolation
    (fun loc => if loc.city_name = "A" then some [("main", JVal.obj [("temp", JVal.num 30)])]
      else if loc.city_name = "C" then some [("main", JVal.obj [("temp", JVal.num 25)])]
      else none)
    (fun _ => true) (fun _ => 9)
    ⟨"A", 1, 2⟩ ⟨"B", 3, 4⟩ ⟨"C", 5, 6⟩
    [("main", JVal.obj [("temp", JVal.num 30)])]
    [("main", JVal.obj [("temp", JVal.num 25)])]
    [("main", JVal.obj [("temp", JVal.num 30)]), ("fetch_timestamp", JVal.num 9),
      ("city_name_clean", JVal.str "A")]
    [("main", JVal.obj [("temp", JVal.num 25)]), ("fetch_timestamp", JVal.num 9),
      ("city_name_clean", JVal.str "C")]
    [] rfl (by simp) rfl rfl rfl rfl (by simp) rfl rfl).1

/-! ## Helper lemmas: the Location Loader -/

theorem insertRows_none_of_lt :
    ∀ (df : List LocationRow) (pending : List LocationRow) (i : Nat),
      i < df.length → insertRows pending df (some i) = none := by
  intro df
  induction df with
  | nil =>
    intro pending i h
    exact absurd h (Nat.not_lt_zero i)
  | cons r rs ih =>
    intro pending i h
    cases i with
    | zero => rfl
    | succ j =>
      rw [insertRows]
      exact ih (pending ++ [r]) j (Nat.lt_of_succ_lt_succ h)

theorem insertRows_no_failure :
    ∀ (df : List LocationRow) (pending : List LocationRow),
      insertRows pending df none = some (pending ++ df) := by
  intro df
  induction df with
  | nil =>
    intro pending
    simp [insertRows]
  | cons r rs ih =>
    intro pending
    rw [insertRows, ih (pending ++ [r])]
    simp

theorem load_data_no_failure (store df : List LocationRow) :
    load_data store df none = (true, store ++ df) := by
  rw [load_data, insertRows_no_failure df []]
  simp

theorem convertRows_eq_none_of_mem {l : List RawRow} {r : RawRow}
    (hr : r ∈ l) (hbad : convertRow r = none) : convertRows l = none := by
  induction l with
  | nil => cases hr
  | cons x xs ih =>
    rcases List.mem_cons.1 hr with rfl | hr
    · rw [convertRows, hbad]
    · rw [convertRows]
      cases convertRow x with
      | none => rfl
      | some y => rw [ih hr]

theorem convertRows_length :
    ∀ {l : List RawRow} {xs : List LocationRow}, convertRows l = some xs →
      xs.length = l.length := by
  intro l
  induction l with
  | nil =>
    intro xs h
    rw [convertRows] at h
    cases h
    rfl
  | cons x ys ih =>
    intro xs h
    rw [convertRows] at h
    cases hc : convertRow x with
    | none => rw [hc] at h; cases h
    | some y =>
      rw [hc] at h
      cases hcs : convertRows ys with
      | none => rw [hcs] at h; cases h
      | some zs =>
        rw [hcs] at h
        cases h
        simp [ih hcs]

theorem dedupByName_length_le :
    ∀ (l : List LocationRow) (seen : List String),
      (dedupByName seen l).length ≤ l.length := by
  intro l
  induction l with
  | nil => intro seen; simp [dedupByName]
  | cons r rs ih =>
    intro seen
    rw [dedupByName]
    by_cases h : r.city_name ∈ seen
    · simp only [h, if_true]
      exact Nat.le_succ_of_le (ih seen)
    · simp only [h, if_false, List.length_cons]
      exact Nat.succ_le_succ (ih (r.city_name :: seen))

theorem dedupByName_spec :
    ∀ (l : List LocationRow) (seen : List String),
      (∀ r ∈ dedupByName seen l, r.city_name ∉ seen) ∧
      ((dedupByName seen l).map (fun r => r.city_name)).Nodup := by
  intro l
  induction l with
  | nil => intro seen; simp [dedupByName]
  | cons r rs ih =>
    intro seen
    rw [dedupByName]
    by_cases h : r.city_name ∈ seen
    · simp only [h, if_true]
      exact ih seen
    · simp only [h, if_false]
      constructor
      · intro x hx
        rcases List.mem_cons.1 hx with rfl | hx
        · exact h
        · have := (ih (r.city_name :: seen)).1 x hx
          intro hseen
          exact this (List.mem_cons_of_mem _ hseen)
      · rw [List.map_cons, List.nodup_cons]
        refine ⟨?_, (ih (r.city_name :: seen)).2⟩
        intro hmem
        rcases List.mem_map.1 hmem with ⟨x, hx, hname⟩
        have := (ih (r.city_name :: seen)).1 x hx
        exact this (hname ▸ List.mem_cons_self _ _)

theorem dedupByName_keepfirst :
    ∀ (l : List LocationRow) (seen : List String) (r : LocationRow),
      r ∈ dedupByName seen l →
      r.city_name ∉ seen ∧
      l.find? (fun e => e.city_name == r.city_name) = some r := by
  intro l
  induction l with
  | nil =>
    intro seen r hr
    simp [dedupByName] at hr
  | cons x xs ih =>
    intro seen r hr
    rw [dedupByName] at hr
    by_cases h : x.city_name ∈ seen
    · rw [if_pos h] at hr
      obtain ⟨hns, hfind⟩ := ih seen r hr
      refine ⟨hns, ?_⟩
      have hne : ¬ ((fun e => e.city_name == r.city_name) x = true) := by
        simp only [beq_iff_eq]
        intro heq
        exact hns (heq ▸ h)
      rw [@List.find?_cons_of_neg _ (fun e => e.city_name == r.city_name) x xs hne]
      exact hfind
    · rw [if_neg h] at hr
      rcases List.mem_cons.1 hr with rfl | hr
      · refine ⟨h, ?_⟩
        have hpos : (fun (e : LocationRow) => e.city_name == r.city_name) r = true := by
          simp
        rw [@List.find?_cons_of_pos _ (fun e => e.city_name == r.city_name) r xs hpos]
      · obtain ⟨hns, hfind⟩ := ih (x.city_name :: seen) r hr
        have hnx : r.city_name ≠ x.city_name := by
          intro hh
          exact hns (hh ▸ List.mem_cons_self _ _)
        refine ⟨fun hseen => hns (List.mem_cons_of_mem _ hseen), ?_⟩
        have hne : ¬ ((fun e => e.city_name == r.city_name) x = true) := by
          simp only [beq_iff_eq]
          intro heq
          exact hnx heq.symm
        rw [@List.find?_cons_of_neg _ (fun e => e.city_name == r.city_name) x xs hne]
        exact hfind

theorem length_filter_split {α : Type} (p : α → Bool) :
    ∀ l : List α, (l.filter p).length + (l.filter (fun x => !(p x))).length = l.length := by
  intro l
  induction l with
  | nil => rfl
  | cons x xs ih =>
    cases h : p x <;> simp [List.filter_cons, h] <;> omega

/-! ## Claim C2: re-running the loader is not an idempotent upsert -/

/-- C2 (counterexample): loading the one-row batch "A" twice leaves two
persisted rows for the city name "A", not the same set as one run — the
loader issues plain INSERTs, not upserts. -/
theorem loader_not_idempotent_counterexample :
    (load_data (load_data [] (transform_data [⟨some "A", some "1", some "2"⟩]) none).2
        (transform_data [⟨some "A", some "1", some "2"⟩]) none).2
      = [⟨"A", 1, 2⟩, ⟨"A", 1, 2⟩] ∧
    (load_data [] (transform_data [⟨some "A", some "1", some "2"⟩]) none).2
      = [⟨"A", 1, 2⟩] ∧
    ([⟨"A", 1, 2⟩, ⟨"A", 1, 2⟩] : List LocationRow) ≠ [⟨"A", 1, 2⟩] := by
  decide

/-- C2 (amended): running the Location Loader twice on the same input
batch appends the transformed batch a second time (plain INSERT, no
upsert and no conflict handling): after two successful runs the store
holds two copies of every batch row, so for a non-empty batch the
persisted set differs from a single run's and some city name is
persisted in (at least) two rows. -/
theorem loader_rerun_appends (df : List RawRow) (t : List LocationRow)
    (ht : t = transform_data df) :
    (load_data (load_data [] t none).2 t none).2 = t ++ t ∧
    (t ≠ [] →
      (load_data (load_data [] t none).2 t none).2 ≠ (load_data [] t none).2 ∧
      ∃ n, 2 ≤ ((t ++ t).filter (fun r => r.city_name == n)).length) := by
  have h1 : (load_data [] t none).2 = t := by
    rw [load_data_no_failure]
    simp
  have h2 : (load_data (load_data [] t none).2 t none).2 = t ++ t := by
    rw [h1, load_data_no_failure]
  refine ⟨h2, ?_⟩
  intro hne
  constructor
  · rw [h2, h1]
    intro heq
    have := congrArg List.length heq
    rw [List.length_append] at this
    have hzero : t.length = 0 := by omega
    exact hne (List.eq_nil_of_length_eq_zero hzero)
  · cases t with
    | nil => exact absurd rfl hne
    | cons r rs =>
      refine ⟨r.city_name, ?_⟩
      have hp : (fun (e : LocationRow) => e.city_name == r.city_name) r = true := by simp
      rw [List.filter_append]
      rw [List.length_append]
      have hone : 1 ≤ ((r :: rs).filter (fun e => e.city_name == r.city_name)).length := by
        rw [List.filter_cons, if_pos hp]
        simp
      omega

/-- C2 witness: instantiating the amended theorem on the one-row batch
"A": two runs leave exactly two copies of the row. -/
theorem loader_rerun_appends_witness :
    (load_data (load_data [] [⟨"A", 1, 2⟩] none).2 [⟨"A", 1, 2⟩] none).2
      = [⟨"A", 1, 2⟩] ++ [⟨"A", 1, 2⟩] :=
  (loader_rerun_appends [⟨some "A", some "1", some "2"⟩] [⟨"A", 1, 2⟩] (by decide)).1

/-! ## Claim C3: a non-numeric coordinate is batch-fatal, not row-level -/

/-- C3 (counterexample): with the batch [good row "A", row "B" with
non-numeric latitude "x"], the transform returns the empty batch — the
good row "A" is dropped too — although "A" alone transforms fine.  A
single non-numeric coordinate therefore discards the whole batch,
contradicting the claim that only the offending row is dropped. -/
theorem bad_coordinate_row_counterexample :
    transform_data [⟨some "A", some "1", some "2"⟩, ⟨some "B", some "x", some "3"⟩] = [] ∧
    transform_data [⟨some "A", some "1", some "2"⟩] = [⟨"A", 1, 2⟩] := by
  decide

/-- C3 (amended): a row whose coordinate field is non-numeric is fatal
to the whole batch: if any row surviving the missing-field drop fails
numeric conversion, `transform_data` returns the empty batch (the
`pd.to_numeric` exception empties the dataframe), so no row of the batch
is persisted and every surviving row is counted as a conversion drop. -/
theorem bad_coordinate_aborts_batch (df : List RawRow) (r : RawRow)
    (hr : r ∈ keptRows df) (hbad : convertRow r = none) :
    transform_data df = [] ∧ conv_drops df = (keptRows df).length := by
  have hnone : convertRows (keptRows df) = none := convertRows_eq_none_of_mem hr hbad
  constructor
  · rw [transform_data, hnone]
  · rw [conv_drops, hnone]

/-- C3 witness: instantiating the amended theorem on the two-row batch
whose "B" row has latitude "x". -/
theorem bad_coordinate_aborts_batch_witness :
    transform_data [⟨some "A", some "1", some "2"⟩, ⟨some "B", some "x", some "3"⟩] = []
    ∧ conv_drops [⟨some "A", some "1", some "2"⟩, ⟨some "B", some "x", some "3"⟩]
      = (keptRows [⟨some "A", some "1", some "2"⟩, ⟨some "B", some "x", some "3"⟩]).length :=
  bad_coordinate_aborts_batch
    [⟨some "A", some "1", some "2"⟩, ⟨some "B", some "x", some "3"⟩]
    ⟨some "B", some "x", some "3"⟩ (by decide) (by decide)

/-! ## Claim C7: the loader's count accounting and name uniqueness -/

/-- C7: for every batch of raw location rows, the number of rows the
loader persists equals the input count minus (missing-field drops +
type-conversion drops + duplicate drops); no two persisted rows share a
city name, and deduplication keeps, for each persisted row, the first
converted row bearing its name in input order. -/
theorem loader_count_accounting (df : List RawRow) :
    (transform_data df).length
      = df.length - (missing_drops df + conv_drops df + dup_drops df) ∧
    (transform_data df).length + missing_drops df + conv_drops df + dup_drops df
      = df.length ∧
    ((transform_data df).map (fun r => r.city_name)).Nodup ∧
    (∀ rows, convertRows (keptRows df) = some rows →
      ∀ r ∈ transform_data df, rows.find? (fun e => e.city_name == r.city_name) = some r) := by
  have hsplit : (keptRows df).length + missing_drops df = df.length := by
    rw [keptRows, missing_drops]
    exact length_filter_split _ df
  cases hcv : convertRows (keptRows df) with
  | none =>
    have htr : transform_data df = [] := by rw [transform_data, hcv]
    have hcd : conv_drops df = (keptRows df).length := by rw [conv_drops, hcv]
    have hdd : dup_drops df = 0 := by rw [dup_drops, hcv]
    refine ⟨?_, ?_, ?_, ?_⟩
    · rw [htr, hcd, hdd]
      simp only [List.length_nil]
      omega
    · rw [htr, hcd, hdd]
      simp only [List.length_nil]
      omega
    · rw [htr]
      simp
    · intro rows hrows
      cases hrows
  | some rows =>
    have htr : transform_data df = dedupByName [] rows := by rw [transform_data, hcv]
    have hcd : conv_drops df = 0 := by rw [conv_drops, hcv]
    have hdd : dup_drops df = rows.length - (dedupByName [] rows).length := by
      rw [dup_drops, hcv]
    have hlen : rows.length = (keptRows df).length := convertRows_length hcv
    have hle : (dedupByName [] rows).length ≤ rows.length := dedupByName_length_le rows []
    refine ⟨?_, ?_, ?_, ?_⟩
    · rw [htr, hcd, hdd]
      omega
    · rw [htr, hcd, hdd]
      omega
    · rw [htr]
      exact (dedupByName_spec rows []).2
    · intro rows' hrows' r hrmem
      cases hrows'
      rw [htr] at hrmem
      exact (dedupByName_keepfirst rows [] r hrmem).2

/-- C7 witness: instantiating the keep-first part on the batch with a
duplicate "A" row: the persisted "A" row is the first converted row
named "A". -/
theorem loader_count_accounting_witness :
    ([⟨"A", 1, 2⟩, ⟨"A", 7, 8⟩] : List LocationRow).find?
      (fun e => e.city_name == "A") = some ⟨"A", 1, 2⟩ :=
  (loader_count_accounting
      [⟨some "A", some "1", some "2"⟩, ⟨some "A", some "7", some "8"⟩]).2.2.2
    [⟨"A", 1, 2⟩, ⟨"A", 7, 8⟩] (by decide) ⟨"A", 1, 2⟩ (by decide)

/-! ## Claim C9: rollback on a mid-batch persistence failure -/

/-- C9: if the persistence step fails at any row of the batch (the i-th
INSERT raises, i within the batch), the transaction is rolled back and
the `locations` table after the failed load equals the table before it:
no row of the batch remains persisted. -/
theorem load_rollback_on_failure (store df : List LocationRow) (i : Nat)
    (h : i < df.length) :
    load_data store df (some i) = (false, store) := by
  rw [load_data, insertRows_none_of_lt df [] i h]

/-- C9 witness: instantiating the rollback theorem with a failure at the
second row of a two-row batch over a one-row table. -/
theorem load_rollback_on_failure_witness :
    load_data [⟨"A", 1, 2⟩] [⟨"B", 3, 4⟩, ⟨"C", 5, 6⟩] (some 1)
      = (false, [⟨"A", 1, 2⟩]) :=
  load_rollback_on_failure [⟨"A", 1, 2⟩] [⟨"B", 3, 4⟩, ⟨"C", 5, 6⟩] 1 (by decide)
